import Mathlib

/-!
Shallow embedding of `x-pack/plugins/upgrade_assistant/server/lib/es_migration_apis.ts`.

The module aggregates deprecation warnings from a cluster management API,
merges them with application-performance-monitoring (apm) index deprecations,
enriches index entries with open/closed state, and reports upgrade readiness.

Modelling conventions:
- JS objects with a fixed key order (`deprecations.index_settings`) become
  ordered association lists `List (String × List DeprecationInfo)`; JS objects
  have unique keys, so iterating the pairs is the same as iterating
  `Object.keys` and looking each key up.
- External collaborators (the system-index predicate, the index-state probe,
  the two concurrent fetches) are parameters of the model.  The two awaited
  fetches and the probe can fail, modelled with `Except String`.
- The probe invocations of one run are recorded in a trace
  (`List (List (Option String))`: one element per call, holding the argument
  list), so that "called exactly once with these names" is statable.
- Regex tests `/Index created before/.test(m)` use literal patterns only, so
  they are substring tests, embedded by the executable `strContains`.
-/

/-- Raw deprecation entry returned by `GET /_migration/deprecations`
(`DeprecationInfo` of the legacy elasticsearch plugin): severity `level`,
free-text `message`, and source-specific context (`url`, `details`). -/
structure DeprecationInfo where
  level : String
  message : String
  url : String
  details : String
deriving DecidableEq, Repr

/-- The `EnrichedDeprecationInfo` of `common/types`: a deprecation extended
with the affected `index`, the `reindex` and `needsDefaultFields` flags and
the optional `blockerForReindexing` tag. -/
structure EnrichedDeprecationInfo where
  level : String
  message : String
  url : String
  details : String
  index : Option String
  reindex : Bool
  needsDefaultFields : Bool
  blockerForReindexing : Option String
deriving DecidableEq, Repr

/-- The `DeprecationAPIResponse`: three cluster-scope lists and an ordered
map from index name to that index's deprecations. -/
structure DeprecationAPIResponse where
  cluster_settings : List DeprecationInfo
  ml_settings : List DeprecationInfo
  node_settings : List DeprecationInfo
  index_settings : List (String × List DeprecationInfo)
deriving DecidableEq, Repr

/-- The `UpgradeAssistantStatus` record returned by the top-level operation. -/
structure UpgradeAssistantStatus where
  readyForUpgrade : Bool
  cluster : List DeprecationInfo
  indices : List EnrichedDeprecationInfo
deriving DecidableEq, Repr

/-- Does the pattern (first argument) lead the character list (second)? -/
def charsLead : List Char → List Char → Bool
  | [], _ => true
  | _ :: _, [] => false
  | a :: as, b :: bs => a = b && charsLead as bs

/-- Does the pattern occur as a contiguous run inside the character list? -/
def charsHaveSub (pat : List Char) : List Char → Bool
  | [] => charsLead pat []
  | c :: cs => charsLead pat (c :: cs) || charsHaveSub pat cs

/-- Substring test: embeds `/pat/.test(s)` for a literal pattern `pat`. -/
def strContains (s pat : String) : Bool :=
  charsHaveSub pat.data s.data

/-- Embeds `getClusterDeprecations`: concatenate the three cluster-scope
lists; on cloud deployments drop the security-realm warning. -/
def getClusterDeprecations (deprecations : DeprecationAPIResponse)
    (isCloudEnabled : Bool) : List DeprecationInfo :=
  let combined := deprecations.cluster_settings ++ deprecations.ml_settings
    ++ deprecations.node_settings
  if isCloudEnabled then
    combined.filter (fun d => d.message ≠ "Security realm settings structure changed")
  else
    combined

/-- Embeds the arrow body in `getCombinedIndexInfos` that maps each raw
warning `d` of index `indexName` to `{...d, index, reindex,
needsDefaultFields}` (no `blockerForReindexing` key yet, i.e. `none`). -/
def enrichIndexDeprecation (apmIndices : List (Option String))
    (indexName : String) (d : DeprecationInfo) : EnrichedDeprecationInfo :=
  { level := d.level
    message := d.message
    url := d.url
    details := d.details
    index := some indexName
    reindex := strContains d.message "Index created before"
      && !(apmIndices.contains (some indexName))
    needsDefaultFields :=
      strContains d.message "Number of fields exceeds automatic field expansion limit"
    blockerForReindexing := none }

/-- Embeds the general (non-apm) part of `getCombinedIndexInfos`: the
expression before `.concat(apmIndexDeprecations)` — keys of `index_settings`
with apm indices filtered out, reduced by concatenating each index's enriched
warnings, then filtered against system indices. -/
def getCombinedIndexInfosGeneral (deprecations : DeprecationAPIResponse)
    (apmIndexDeprecations : List EnrichedDeprecationInfo)
    (isSystemIndex : String → Bool) : List EnrichedDeprecationInfo :=
  let apmIndices := apmIndexDeprecations.map (fun dep => dep.index)
  (((deprecations.index_settings.filter
      (fun p => !(apmIndices.contains (some p.1)))).foldl
      (fun indexDeprecations p =>
        indexDeprecations ++ p.2.map (enrichIndexDeprecation apmIndices p.1))
      []).filter
    (fun deprecation => !(isSystemIndex (deprecation.index.getD ""))))

/-- Embeds `getCombinedIndexInfos`: the general part with the apm list
appended, unfiltered. -/
def getCombinedIndexInfos (deprecations : DeprecationAPIResponse)
    (apmIndexDeprecations : List EnrichedDeprecationInfo)
    (isSystemIndex : String → Bool) : List EnrichedDeprecationInfo :=
  getCombinedIndexInfosGeneral deprecations apmIndexDeprecations isSystemIndex
    ++ apmIndexDeprecations

/-- Embeds the `indices.forEach` pass of `getUpgradeAssistantStatus`:
`indexData.blockerForReindexing = indexStates[indexData.index!] === 'close'
? 'index-closed' : undefined`.  `indexStates` is the probe's returned
mapping, modelled as `String → Option String`. -/
def enrichWithState (indexStates : String → Option String)
    (indices : List EnrichedDeprecationInfo) : List EnrichedDeprecationInfo :=
  indices.map (fun indexData =>
    { indexData with
        blockerForReindexing :=
          if indexData.index.bind indexStates = some "close" then
            some "index-closed"
          else
            none })

/-- Embeds the tail of `getUpgradeAssistantStatus`: count critical warnings
across `cluster.concat(indices)` and build the returned record. -/
def mkUpgradeStatus (cluster : List DeprecationInfo)
    (indices : List EnrichedDeprecationInfo) : UpgradeAssistantStatus :=
  let criticalWarnings :=
    (cluster.filter (fun d => d.level = "critical")).length
      + (indices.filter (fun d => d.level = "critical")).length
  { readyForUpgrade := criticalWarnings = 0
    cluster := cluster
    indices := indices }

/-- Embeds the body of `getUpgradeAssistantStatus` after both awaited
fetches succeeded.  The second component of the result is the trace of
probe invocations (the argument lists passed to `esIndicesStateCheck`). -/
def runStatusCore (deprecations : DeprecationAPIResponse)
    (isCloudEnabled : Bool)
    (apmIndexDeprecations : List EnrichedDeprecationInfo)
    (isSystemIndex : String → Bool)
    (probe : List (Option String) → Except String (String → Option String)) :
    Except String UpgradeAssistantStatus × List (List (Option String)) :=
  let cluster := getClusterDeprecations deprecations isCloudEnabled
  let indices :=
    getCombinedIndexInfos deprecations apmIndexDeprecations isSystemIndex
  let indexNames := indices.map (fun d => d.index)
  if indexNames.length ≠ 0 then
    match probe indexNames with
    | Except.error e => (Except.error e, [indexNames])
    | Except.ok indexStates =>
      (Except.ok (mkUpgradeStatus cluster (enrichWithState indexStates indices)),
        [indexNames])
  else
    (Except.ok (mkUpgradeStatus cluster indices), [])

/-- Embeds `getUpgradeAssistantStatus`.  The two concurrently awaited
operations (the `/_migration/deprecations` fetch and
`getDeprecatedApmIndices`) are passed as their settled outcomes; a rejection
of either propagates unchanged (`Promise.all` fail-fast). -/
def getUpgradeAssistantStatus
    (fetchDeprecations : Except String DeprecationAPIResponse)
    (fetchApm : Except String (List EnrichedDeprecationInfo))
    (isCloudEnabled : Bool)
    (isSystemIndex : String → Bool)
    (probe : List (Option String) → Except String (String → Option String)) :
    Except String UpgradeAssistantStatus × List (List (Option String)) :=
  match fetchDeprecations, fetchApm with
  | Except.error e, _ => (Except.error e, [])
  | Except.ok _, Except.error e => (Except.error e, [])
  | Except.ok deprecations, Except.ok apmIndexDeprecations =>
    runStatusCore deprecations isCloudEnabled apmIndexDeprecations
      isSystemIndex probe

/-- Concatenation of the images of a function over a list; used to restate
the `reduce`-with-`concat` accumulation of `getCombinedIndexInfos`. -/
def listFlat (f : α → List β) : List α → List β
  | [] => []
  | a :: l => f a ++ listFlat f l

/-- Spec reading of the merge (§4.2 of the design): for each key in the
response's order, skip apm indices, enrich the key's warnings, remove
system-index entries, then append the apm list unfiltered. -/
def getCombinedIndexInfosSpec (deprecations : DeprecationAPIResponse)
    (apmIndexDeprecations : List EnrichedDeprecationInfo)
    (isSystemIndex : String → Bool) : List EnrichedDeprecationInfo :=
  listFlat
    (fun p =>
      if (apmIndexDeprecations.map (fun dep => dep.index)).contains (some p.1) then
        []
      else
        (p.2.map
            (enrichIndexDeprecation
              (apmIndexDeprecations.map (fun dep => dep.index)) p.1)).filter
          (fun deprecation => !(isSystemIndex (deprecation.index.getD ""))))
    deprecations.index_settings
  ++ apmIndexDeprecations

/-- Empty deprecation response. -/
def emptyResp : DeprecationAPIResponse :=
  { cluster_settings := [], ml_settings := [], node_settings := [], index_settings := [] }

/-- Status returned on fully empty input. -/
def emptyStatus : UpgradeAssistantStatus :=
  { readyForUpgrade := true, cluster := [], indices := [] }

/-- Raw warning whose message matches the reindex pattern. -/
def warnBefore : DeprecationInfo :=
  { level := "warning", message := "Index created before 7.0", url := "", details := "" }

/-- Raw warning with an unrelated message. -/
def warnOther : DeprecationInfo :=
  { level := "warning", message := "some other deprecation", url := "", details := "" }

/-- Response whose only index carries two warnings, so the merged list
references the same index name twice. -/
def dupResp : DeprecationAPIResponse :=
  { cluster_settings := [], ml_settings := [], node_settings := [],
    index_settings := [("a", [warnBefore, warnOther])] }

/-- Response with one index, one warning, matching the end-to-end scenario
of the spec. -/
def idx1Resp : DeprecationAPIResponse :=
  { cluster_settings := [], ml_settings := [], node_settings := [],
    index_settings := [("idx1", [warnBefore])] }

/-- The enriched entry the merge produces for `idx1Resp`. -/
def idx1Entry : EnrichedDeprecationInfo :=
  { level := "warning", message := "Index created before 7.0", url := "", details := "",
    index := some "idx1", reindex := true, needsDefaultFields := false,
    blockerForReindexing := none }

/-- An apm-supplied enriched warning whose `reindex` flag is set although
its message does not match the reindex pattern. -/
def apmBad : EnrichedDeprecationInfo :=
  { level := "warning", message := "x", url := "", details := "",
    index := some "apm-1", reindex := true, needsDefaultFields := false,
    blockerForReindexing := none }

/-- An apm-supplied enriched warning for index `a`, carrying a stale
`blockerForReindexing` value. -/
def apmA : EnrichedDeprecationInfo :=
  { level := "warning", message := "apm warning", url := "", details := "",
    index := some "a", reindex := true, needsDefaultFields := false,
    blockerForReindexing := some "stale" }

/-- Probe that reports every index open. -/
def openProbe : List (Option String) → Except String (String → Option String) :=
  fun _ => Except.ok (fun _ => none)

/-- Probe that reports `idx1` closed and everything else open. -/
def closeIdx1Probe : List (Option String) → Except String (String → Option String) :=
  fun _ => Except.ok (fun n => if n = "idx1" then some "close" else none)

/-- Probe that always fails. -/
def failProbe : List (Option String) → Except String (String → Option String) :=
  fun _ => Except.error "probe down"

/-- The `idx1` entry after enrichment with a closed index state. -/
def idx1ClosedEntry : EnrichedDeprecationInfo :=
  { level := "warning", message := "Index created before 7.0", url := "", details := "",
    index := some "idx1", reindex := true, needsDefaultFields := false,
    blockerForReindexing := some "index-closed" }

/-- Status returned for `idx1Resp` when the probe reports `idx1` closed. -/
def idx1ClosedStatus : UpgradeAssistantStatus :=
  { readyForUpgrade := true, cluster := [], indices := [idx1ClosedEntry] }

/-- The `apmA` entry after enrichment overwrote its stale blocker value. -/
def apmACleared : EnrichedDeprecationInfo :=
  { level := "warning", message := "apm warning", url := "", details := "",
    index := some "a", reindex := true, needsDefaultFields := false,
    blockerForReindexing := none }

/-- Status returned when the only input warning is `apmA` and the probe
reports everything open: the stale blocker value is overwritten. -/
def apmAStatus : UpgradeAssistantStatus :=
  { readyForUpgrade := true, cluster := [], indices := [apmACleared] }

theorem charsLead_iff (p : List Char) :
    ∀ s : List Char, charsLead p s = true ↔ ∃ r, s = p ++ r := by
  induction p with
  | nil =>
    intro s
    simp [charsLead]
  | cons a as ih =>
    intro s
    cases s with
    | nil =>
      simp [charsLead]
    | cons b bs =>
      simp only [charsLead, Bool.and_eq_true, decide_eq_true_iff, ih bs]
      constructor
      · rintro ⟨rfl, r, rfl⟩
        exact ⟨r, rfl⟩
      · rintro ⟨r, h⟩
        simp only [List.cons_append, List.cons.injEq] at h
        exact ⟨h.1.symm, r, h.2⟩

theorem charsHaveSub_iff (p : List Char) :
    ∀ s : List Char, charsHaveSub p s = true ↔ ∃ l r, s = l ++ p ++ r := by
  intro s
  induction s with
  | nil =>
    simp only [charsHaveSub, charsLead_iff]
    constructor
    · rintro ⟨r, h⟩
      exact ⟨[], r, by simpa using h⟩
    · rintro ⟨l, r, h⟩
      refine ⟨r, ?_⟩
      rcases List.append_eq_nil.mp (List.append_eq_nil.mp h.symm).1 with ⟨rfl, rfl⟩
      simpa using h
  | cons c cs ih =>
    simp only [charsHaveSub, Bool.or_eq_true, charsLead_iff, ih]
    constructor
    · rintro (⟨r, h⟩ | ⟨l, r, h⟩)
      · exact ⟨[], r, by simpa using h⟩
      · exact ⟨c :: l, r, by simp [h]⟩
    · rintro ⟨l, r, h⟩
      cases l with
      | nil =>
        exact Or.inl ⟨r, by simpa using h⟩
      | cons x xs =>
        simp only [List.cons_append, List.cons.injEq] at h
        exact Or.inr ⟨xs, r, h.2⟩

/-- Membership of the substring test: `strContains s pat = true` exactly when
the pattern occurs contiguously in `s`. -/
theorem strContains_iff (s pat : String) :
    strContains s pat = true ↔ ∃ l r, s.data = l ++ pat.data ++ r :=
  charsHaveSub_iff pat.data s.data

theorem mem_listFlat {f : α → List β} {b : β} :
    ∀ {l : List α}, b ∈ listFlat f l ↔ ∃ a ∈ l, b ∈ f a := by
  intro l
  induction l with
  | nil => simp [listFlat]
  | cons a l ih => simp [listFlat, ih]

theorem filter_listFlat (f : α → List β) (q : β → Bool) :
    ∀ l : List α, (listFlat f l).filter q = listFlat (fun a => (f a).filter q) l := by
  intro l
  induction l with
  | nil => simp [listFlat]
  | cons a l ih => simp [listFlat, List.filter_append, ih]

theorem foldl_append_eq_listFlat (f : α → List β) :
    ∀ (l : List α) (init : List β),
      l.foldl (fun acc a => acc ++ f a) init = init ++ listFlat f l := by
  intro l
  induction l with
  | nil => simp [listFlat]
  | cons a l ih =>
    intro init
    simp [listFlat, List.foldl_cons, ih, List.append_assoc]

theorem listFlat_of_filter (q : α → Bool) (f : α → List β) :
    ∀ l : List α,
      listFlat f (l.filter q) = listFlat (fun a => if q a then f a else []) l := by
  intro l
  induction l with
  | nil => simp [listFlat]
  | cons a l ih =>
    by_cases h : q a = true
    · simp [listFlat, List.filter_cons, h, ih]
    · simp only [Bool.not_eq_true] at h
      simp [listFlat, List.filter_cons, h, ih]

/-- The general part of the merge, restated over `listFlat`: for every
non-apm key in order, that key's enriched warnings with system-index
entries removed. -/
theorem getCombinedIndexInfosGeneral_eq (deprecations : DeprecationAPIResponse)
    (apmIndexDeprecations : List EnrichedDeprecationInfo)
    (isSystemIndex : String → Bool) :
    getCombinedIndexInfosGeneral deprecations apmIndexDeprecations isSystemIndex =
      listFlat
        (fun p =>
          if !((apmIndexDeprecations.map (fun dep => dep.index)).contains (some p.1)) then
            (p.2.map
                (enrichIndexDeprecation
                  (apmIndexDeprecations.map (fun dep => dep.index)) p.1)).filter
              (fun deprecation => !(isSystemIndex (deprecation.index.getD "")))
          else
            [])
        deprecations.index_settings := by
  simp only [getCombinedIndexInfosGeneral]
  rw [foldl_append_eq_listFlat, List.nil_append, filter_listFlat,
    listFlat_of_filter]

theorem listFlat_congr {f g : α → List β} (h : ∀ a, f a = g a) :
    ∀ l : List α, listFlat f l = listFlat g l := by
  intro l
  induction l with
  | nil => rfl
  | cons a l ih => simp [listFlat, h a, ih]

theorem mkUpgradeStatus_cluster (cluster : List DeprecationInfo)
    (indices : List EnrichedDeprecationInfo) :
    (mkUpgradeStatus cluster indices).cluster = cluster := rfl

theorem mkUpgradeStatus_indices (cluster : List DeprecationInfo)
    (indices : List EnrichedDeprecationInfo) :
    (mkUpgradeStatus cluster indices).indices = indices := rfl

theorem mkUpgradeStatus_ready_iff (cluster : List DeprecationInfo)
    (indices : List EnrichedDeprecationInfo) :
    (mkUpgradeStatus cluster indices).readyForUpgrade = true ↔
      (∀ c ∈ cluster, c.level ≠ "critical") ∧
        (∀ i ∈ indices, i.level ≠ "critical") := by
  simp only [mkUpgradeStatus, decide_eq_true_iff, Nat.add_eq_zero,
    List.length_eq_zero, List.filter_eq_nil_iff, decide_eq_true_eq]

theorem runStatusCore_eq_of_empty (deprecations : DeprecationAPIResponse)
    (isCloudEnabled : Bool) (apmIndexDeprecations : List EnrichedDeprecationInfo)
    (isSystemIndex : String → Bool)
    (probe : List (Option String) → Except String (String → Option String))
    (h : getCombinedIndexInfos deprecations apmIndexDeprecations isSystemIndex = []) :
    runStatusCore deprecations isCloudEnabled apmIndexDeprecations isSystemIndex probe =
      (Except.ok
        (mkUpgradeStatus (getClusterDeprecations deprecations isCloudEnabled) []),
        []) := by
  simp [runStatusCore, h]

theorem runStatusCore_eq_of_probe_error (deprecations : DeprecationAPIResponse)
    (isCloudEnabled : Bool) (apmIndexDeprecations : List EnrichedDeprecationInfo)
    (isSystemIndex : String → Bool)
    (probe : List (Option String) → Except String (String → Option String))
    (e : String)
    (hne : getCombinedIndexInfos deprecations apmIndexDeprecations isSystemIndex ≠ [])
    (hp : probe ((getCombinedIndexInfos deprecations apmIndexDeprecations
        isSystemIndex).map (fun d => d.index)) = Except.error e) :
    runStatusCore deprecations isCloudEnabled apmIndexDeprecations isSystemIndex probe =
      (Except.error e,
        [(getCombinedIndexInfos deprecations apmIndexDeprecations
            isSystemIndex).map (fun d => d.index)]) := by
  simp [runStatusCore, hp, hne]

theorem runStatusCore_eq_of_probe_ok (deprecations : DeprecationAPIResponse)
    (isCloudEnabled : Bool) (apmIndexDeprecations : List EnrichedDeprecationInfo)
    (isSystemIndex : String → Bool)
    (probe : List (Option String) → Except String (String → Option String))
    (indexStates : String → Option String)
    (hne : getCombinedIndexInfos deprecations apmIndexDeprecations isSystemIndex ≠ [])
    (hp : probe ((getCombinedIndexInfos deprecations apmIndexDeprecations
        isSystemIndex).map (fun d => d.index)) = Except.ok indexStates) :
    runStatusCore deprecations isCloudEnabled apmIndexDeprecations isSystemIndex probe =
      (Except.ok
        (mkUpgradeStatus (getClusterDeprecations deprecations isCloudEnabled)
          (enrichWithState indexStates
            (getCombinedIndexInfos deprecations apmIndexDeprecations isSystemIndex))),
        [(getCombinedIndexInfos deprecations apmIndexDeprecations
            isSystemIndex).map (fun d => d.index)]) := by
  simp [runStatusCore, hp, hne]

/-- C1: for every input on which the top-level operation succeeds, the
returned status has `readyForUpgrade = true` iff no entry of its `cluster`
list and no entry of its `indices` list has level `"critical"`; in
particular it is true when both lists are empty. -/
theorem C1_readyForUpgrade_iff
    (fetchDeprecations : Except String DeprecationAPIResponse)
    (fetchApm : Except String (List EnrichedDeprecationInfo))
    (isCloudEnabled : Bool) (isSystemIndex : String → Bool)
    (probe : List (Option String) → Except String (String → Option String))
    (st : UpgradeAssistantStatus)
    (h : (getUpgradeAssistantStatus fetchDeprecations fetchApm isCloudEnabled
        isSystemIndex probe).1 = Except.ok st) :
    st.readyForUpgrade = true ↔
      (∀ c ∈ st.cluster, c.level ≠ "critical") ∧
        (∀ i ∈ st.indices, i.level ≠ "critical") := by
  cases fetchDeprecations with
  | error e => simp [getUpgradeAssistantStatus] at h
  | ok deprecations =>
    cases fetchApm with
    | error e => simp [getUpgradeAssistantStatus] at h
    | ok apmIndexDeprecations =>
      have hrun : (runStatusCore deprecations isCloudEnabled apmIndexDeprecations
          isSystemIndex probe).1 = Except.ok st := h
      by_cases hv :
          getCombinedIndexInfos deprecations apmIndexDeprecations isSystemIndex = []
      · rw [runStatusCore_eq_of_empty _ _ _ _ _ hv] at hrun
        simp only [Except.ok.injEq] at hrun
        subst hrun
        simp only [mkUpgradeStatus_cluster, mkUpgradeStatus_indices,
          mkUpgradeStatus_ready_iff]
      · cases hps : probe ((getCombinedIndexInfos deprecations apmIndexDeprecations
            isSystemIndex).map (fun d => d.index)) with
        | error e =>
          rw [runStatusCore_eq_of_probe_error _ _ _ _ _ _ hv hps] at hrun
          simp at hrun
        | ok indexStates =>
          rw [runStatusCore_eq_of_probe_ok _ _ _ _ _ _ hv hps] at hrun
          simp only [Except.ok.injEq] at hrun
          subst hrun
          simp only [mkUpgradeStatus_cluster, mkUpgradeStatus_indices,
            mkUpgradeStatus_ready_iff]

/-- Witness for C1 on the fully empty input: the call succeeds with the
empty status and the readiness equivalence holds there (both sides true). -/
theorem C1_witness :
    (getUpgradeAssistantStatus (Except.ok emptyResp) (Except.ok []) false
        (fun _ => false) openProbe).1 = Except.ok emptyStatus
    ∧ (emptyStatus.readyForUpgrade = true ↔
        (∀ c ∈ emptyStatus.cluster, c.level ≠ "critical") ∧
          (∀ i ∈ emptyStatus.indices, i.level ≠ "critical")) :=
  ⟨rfl,
    C1_readyForUpgrade_iff (Except.ok emptyResp) (Except.ok []) false
      (fun _ => false) openProbe emptyStatus rfl⟩

/-- C2: the cluster deprecation filter returns the concatenation of the
cluster-settings, ml-settings and node-settings lists in that order when
the cloud flag is false; when the flag is true it returns that same
concatenation restricted to warnings whose message differs from
"Security realm settings structure changed", and removes nothing else
(membership characterisation). -/
theorem C2_cluster_filter (deprecations : DeprecationAPIResponse) :
    getClusterDeprecations deprecations false =
        deprecations.cluster_settings ++ deprecations.ml_settings
          ++ deprecations.node_settings
    ∧ getClusterDeprecations deprecations true =
        (deprecations.cluster_settings ++ deprecations.ml_settings
            ++ deprecations.node_settings).filter
          (fun d => d.message ≠ "Security realm settings structure changed")
    ∧ ∀ d : DeprecationInfo,
        d ∈ getClusterDeprecations deprecations true ↔
          d ∈ deprecations.cluster_settings ++ deprecations.ml_settings
              ++ deprecations.node_settings
            ∧ d.message ≠ "Security realm settings structure changed" := by
  refine ⟨rfl, rfl, fun d => ?_⟩
  simp [getClusterDeprecations, List.mem_filter]
  tauto

theorem mem_general_elim {deprecations : DeprecationAPIResponse}
    {apmIndexDeprecations : List EnrichedDeprecationInfo}
    {isSystemIndex : String → Bool} {e : EnrichedDeprecationInfo}
    (h : e ∈ getCombinedIndexInfosGeneral deprecations apmIndexDeprecations
        isSystemIndex) :
    ∃ p ∈ deprecations.index_settings,
      some p.1 ∉ apmIndexDeprecations.map (fun dep => dep.index) ∧
        ∃ w ∈ p.2,
          e = enrichIndexDeprecation
            (apmIndexDeprecations.map (fun dep => dep.index)) p.1 w := by
  rw [getCombinedIndexInfosGeneral_eq, mem_listFlat] at h
  obtain ⟨p, hp, he⟩ := h
  cases hc :
      (apmIndexDeprecations.map (fun dep => dep.index)).contains (some p.1) with
  | true =>
    rw [if_neg (by rw [hc]; decide)] at he
    exact absurd he (List.not_mem_nil e)
  | false =>
    rw [if_pos (by rw [hc]; decide)] at he
    rw [List.mem_filter, List.mem_map] at he
    obtain ⟨⟨w, hw, hew⟩, _⟩ := he
    refine ⟨p, hp, ?_, w, hw, hew.symm⟩
    intro hmem
    have hct : (apmIndexDeprecations.map (fun dep => dep.index)).contains
        (some p.1) = true := List.elem_iff.mpr hmem
    rw [hc] at hct
    cases hct

/-- C3: when an index name is both a key of `index_settings` and the index
of some apm warning, the general (non-apm) portion of the merged list —
the merged list being the general portion followed by the apm list —
contains no entry for that index. -/
theorem C3_apm_excluded (deprecations : DeprecationAPIResponse)
    (apmIndexDeprecations : List EnrichedDeprecationInfo)
    (isSystemIndex : String → Bool) (name : String)
    (hkey : name ∈ deprecations.index_settings.map (fun p => p.1))
    (hapm : some name ∈ apmIndexDeprecations.map (fun dep => dep.index)) :
    getCombinedIndexInfos deprecations apmIndexDeprecations isSystemIndex =
        getCombinedIndexInfosGeneral deprecations apmIndexDeprecations isSystemIndex
          ++ apmIndexDeprecations
      ∧ ∀ e ∈ getCombinedIndexInfosGeneral deprecations apmIndexDeprecations
          isSystemIndex, e.index ≠ some name := by
  refine ⟨rfl, fun e he hix => ?_⟩
  obtain ⟨p, hp, hnotapm, w, hw, hew⟩ := mem_general_elim he
  rw [hew] at hix
  simp only [enrichIndexDeprecation, Option.some.injEq] at hix
  exact hnotapm (hix ▸ hapm)

/-- Witness for C3: index `a` is a key of `dupResp.index_settings` and the
index of the apm warning `apmA`, and indeed the general portion of the
merge has no entry for it. -/
theorem C3_witness :
    ("a" ∈ dupResp.index_settings.map (fun p => p.1)
      ∧ some "a" ∈ [apmA].map (fun dep => dep.index))
    ∧ (getCombinedIndexInfos dupResp [apmA] (fun _ => false) =
          getCombinedIndexInfosGeneral dupResp [apmA] (fun _ => false) ++ [apmA]
        ∧ ∀ e ∈ getCombinedIndexInfosGeneral dupResp [apmA] (fun _ => false),
            e.index ≠ some "a") :=
  ⟨⟨by decide, by decide⟩,
    C3_apm_excluded dupResp [apmA] (fun _ => false) "a" (by decide) (by decide)⟩

/-- C4 fails as stated: the merged list ends with the apm-supplied entries,
whose flags are whatever the apm lookup produced.  On the concrete input
`apmBad` the merged list contains an entry with `reindex = true` whose
message `"x"` does not contain `"Index created before"`. -/
theorem C4_counterexample :
    getCombinedIndexInfos emptyResp [apmBad] (fun _ => false) = [apmBad]
      ∧ apmBad.reindex = true
      ∧ strContains apmBad.message "Index created before" = false
      ∧ ¬∃ l r, apmBad.message.data = l ++ ("Index created before").data ++ r :=
  ⟨rfl, rfl, rfl,
    fun hex => absurd ((strContains_iff apmBad.message "Index created before").mpr hex)
      (by decide)⟩

/-- C4 amended: for every entry of the general (non-apm) portion of the
merged list, `reindex` is true iff the message contains the substring
"Index created before", and `needsDefaultFields` is true iff the message
contains "Number of fields exceeds automatic field expansion limit";
apm-supplied entries keep the flags they arrived with. -/
theorem C4_flags_iff (deprecations : DeprecationAPIResponse)
    (apmIndexDeprecations : List EnrichedDeprecationInfo)
    (isSystemIndex : String → Bool) :
    ∀ e ∈ getCombinedIndexInfosGeneral deprecations apmIndexDeprecations
        isSystemIndex,
      (e.reindex = true ↔
          ∃ l r, e.message.data = l ++ ("Index created before").data ++ r)
        ∧ (e.needsDefaultFields = true ↔
            ∃ l r, e.message.data =
              l ++ ("Number of fields exceeds automatic field expansion limit").data
                ++ r) := by
  intro e he
  obtain ⟨p, hp, hnotapm, w, hw, hew⟩ := mem_general_elim he
  have hc : (apmIndexDeprecations.map (fun dep => dep.index)).contains
      (some p.1) = false := by
    cases hcv : (apmIndexDeprecations.map (fun dep => dep.index)).contains
        (some p.1) with
    | true => exact absurd (List.elem_iff.mp hcv) hnotapm
    | false => rfl
  subst hew
  constructor
  · rw [show (enrichIndexDeprecation
        (apmIndexDeprecations.map (fun dep => dep.index)) p.1 w).reindex =
          (strContains w.message "Index created before"
            && !((apmIndexDeprecations.map (fun dep => dep.index)).contains
              (some p.1))) from rfl, hc]
    simp only [Bool.not_false, Bool.and_true]
    exact strContains_iff w.message "Index created before"
  · exact strContains_iff w.message
      "Number of fields exceeds automatic field expansion limit"

/-- Witness for C4 amended: the enriched entry for `idx1` is in the general
portion for `idx1Resp`, and the flag equivalences hold on it. -/
theorem C4_witness :
    idx1Entry ∈ getCombinedIndexInfosGeneral idx1Resp [] (fun _ => false)
    ∧ ((idx1Entry.reindex = true ↔
          ∃ l r, idx1Entry.message.data = l ++ ("Index created before").data ++ r)
        ∧ (idx1Entry.needsDefaultFields = true ↔
            ∃ l r, idx1Entry.message.data =
              l ++ ("Number of fields exceeds automatic field expansion limit").data
                ++ r)) :=
  ⟨by decide,
    C4_flags_iff idx1Resp [] (fun _ => false) idx1Entry (by decide)⟩

/-- C5: the merged index list is, in order, the general portion — for each
non-apm key of `index_settings` in key order, its raw warnings in order,
enriched, with system-index entries removed — followed by the full apm
warning list, unfiltered. -/
theorem C5_merge_shape (deprecations : DeprecationAPIResponse)
    (apmIndexDeprecations : List EnrichedDeprecationInfo)
    (isSystemIndex : String → Bool) :
    getCombinedIndexInfos deprecations apmIndexDeprecations isSystemIndex =
      getCombinedIndexInfosSpec deprecations apmIndexDeprecations isSystemIndex := by
  unfold getCombinedIndexInfos getCombinedIndexInfosSpec
  rw [getCombinedIndexInfosGeneral_eq]
  congr 1
  apply listFlat_congr
  intro p
  cases hcv : (apmIndexDeprecations.map (fun dep => dep.index)).contains
      (some p.1) with
  | true => simp
  | false => simp

/-- C6 fails as stated: the probe receives `indices.map(({index}) => index!)`
with duplicates retained, not the unique name set.  On `dupResp` the single
index `a` carries two warnings, and the one probe invocation receives the
name `a` twice. -/
theorem C6_counterexample :
    (getUpgradeAssistantStatus (Except.ok dupResp) (Except.ok []) false
        (fun _ => false) openProbe).2 = [[some "a", some "a"]]
      ∧ [some "a", some "a"].count (some "a") = 2 :=
  ⟨rfl, rfl⟩

/-- C6 amended: when the merged index list is non-empty, the probe is
invoked exactly once and receives the list of the entries' index names in
entry order, duplicates retained; when the merged list is empty the probe
is never invoked. -/
theorem C6_probe_calls
    (fetchDeprecations : Except String DeprecationAPIResponse)
    (fetchApm : Except String (List EnrichedDeprecationInfo))
    (isCloudEnabled : Bool) (isSystemIndex : String → Bool)
    (probe : List (Option String) → Except String (String → Option String))
    (deprecations : DeprecationAPIResponse)
    (apmIndexDeprecations : List EnrichedDeprecationInfo)
    (hfd : fetchDeprecations = Except.ok deprecations)
    (hfa : fetchApm = Except.ok apmIndexDeprecations) :
    (getCombinedIndexInfos deprecations apmIndexDeprecations isSystemIndex ≠ [] →
      (getUpgradeAssistantStatus fetchDeprecations fetchApm isCloudEnabled
          isSystemIndex probe).2 =
        [(getCombinedIndexInfos deprecations apmIndexDeprecations
            isSystemIndex).map (fun d => d.index)])
    ∧ (getCombinedIndexInfos deprecations apmIndexDeprecations isSystemIndex = [] →
      (getUpgradeAssistantStatus fetchDeprecations fetchApm isCloudEnabled
          isSystemIndex probe).2 = []) := by
  subst hfd
  subst hfa
  have hcore : getUpgradeAssistantStatus (Except.ok deprecations)
      (Except.ok apmIndexDeprecations) isCloudEnabled isSystemIndex probe =
      runStatusCore deprecations isCloudEnabled apmIndexDeprecations
        isSystemIndex probe := rfl
  constructor
  · intro hne
    rw [hcore]
    cases hps : probe ((getCombinedIndexInfos deprecations apmIndexDeprecations
        isSystemIndex).map (fun d => d.index)) with
    | error e =>
      rw [runStatusCore_eq_of_probe_error _ _ _ _ _ _ hne hps]
    | ok indexStates =>
      rw [runStatusCore_eq_of_probe_ok _ _ _ _ _ _ hne hps]
  · intro hv
    rw [hcore, runStatusCore_eq_of_empty _ _ _ _ _ hv]

/-- Witness for C6 amended: on `idx1Resp` the merged list is the single
`idx1` entry and the probe trace is exactly one call with `[some "idx1"]`;
the empty branch is exercised by the equivalence's hypothesis being
discharged concretely. -/
theorem C6_witness :
    getCombinedIndexInfos idx1Resp [] (fun _ => false) ≠ []
    ∧ (getUpgradeAssistantStatus (Except.ok idx1Resp) (Except.ok []) false
        (fun _ => false) openProbe).2 =
      [(getCombinedIndexInfos idx1Resp [] (fun _ => false)).map (fun d => d.index)] :=
  ⟨by decide,
    (C6_probe_calls (Except.ok idx1Resp) (Except.ok []) false (fun _ => false)
      openProbe idx1Resp [] rfl rfl).1 (by decide)⟩

/-- C7: after state enrichment every returned index entry whose index name
the probe mapping sends to "close" carries `blockerForReindexing =
"index-closed"`, and every other entry carries `none`; no other value
occurs. -/
theorem C7_blocker_for_reindexing
    (fetchDeprecations : Except String DeprecationAPIResponse)
    (fetchApm : Except String (List EnrichedDeprecationInfo))
    (isCloudEnabled : Bool) (isSystemIndex : String → Bool)
    (probe : List (Option String) → Except String (String → Option String))
    (deprecations : DeprecationAPIResponse)
    (apmIndexDeprecations : List EnrichedDeprecationInfo)
    (indexStates : String → Option String) (st : UpgradeAssistantStatus)
    (hfd : fetchDeprecations = Except.ok deprecations)
    (hfa : fetchApm = Except.ok apmIndexDeprecations)
    (hp : probe ((getCombinedIndexInfos deprecations apmIndexDeprecations
        isSystemIndex).map (fun d => d.index)) = Except.ok indexStates)
    (h : (getUpgradeAssistantStatus fetchDeprecations fetchApm isCloudEnabled
        isSystemIndex probe).1 = Except.ok st) :
    ∀ e ∈ st.indices,
      (e.index.bind indexStates = some "close" →
        e.blockerForReindexing = some "index-closed")
      ∧ (e.index.bind indexStates ≠ some "close" →
        e.blockerForReindexing = none) := by
  subst hfd
  subst hfa
  have hrun : (runStatusCore deprecations isCloudEnabled apmIndexDeprecations
      isSystemIndex probe).1 = Except.ok st := h
  by_cases hv :
      getCombinedIndexInfos deprecations apmIndexDeprecations isSystemIndex = []
  · rw [runStatusCore_eq_of_empty _ _ _ _ _ hv] at hrun
    simp only [Except.ok.injEq] at hrun
    subst hrun
    intro e he
    rw [mkUpgradeStatus_indices] at he
    exact absurd he (List.not_mem_nil e)
  · rw [runStatusCore_eq_of_probe_ok _ _ _ _ _ _ hv hp] at hrun
    simp only [Except.ok.injEq] at hrun
    subst hrun
    intro e he
    rw [mkUpgradeStatus_indices, enrichWithState, List.mem_map] at he
    obtain ⟨e0, he0, rfl⟩ := he
    by_cases hcl : e0.index.bind indexStates = some "close"
    · exact ⟨fun _ => by simp [hcl], fun hne => absurd (by simpa using hcl) hne⟩
    · exact ⟨fun hclose => absurd (by simpa using hclose) hcl, fun _ => by simp [hcl]⟩

/-- Witness for C7, the spec's end-to-end closed-index scenario: on
`idx1Resp` with the probe reporting `idx1` closed, the returned entry
carries the "index-closed" tag and the dichotomy holds on it. -/
theorem C7_witness :
    (closeIdx1Probe ((getCombinedIndexInfos idx1Resp [] (fun _ => false)).map
        (fun d => d.index)) =
      Except.ok (fun n => if n = "idx1" then some "close" else none))
    ∧ (getUpgradeAssistantStatus (Except.ok idx1Resp) (Except.ok []) false
        (fun _ => false) closeIdx1Probe).1 = Except.ok idx1ClosedStatus
    ∧ ∀ e ∈ idx1ClosedStatus.indices,
        (e.index.bind (fun n => if n = "idx1" then some "close" else none) =
            some "close" →
          e.blockerForReindexing = some "index-closed")
        ∧ (e.index.bind (fun n => if n = "idx1" then some "close" else none) ≠
            some "close" →
          e.blockerForReindexing = none) :=
  ⟨rfl, rfl,
    C7_blocker_for_reindexing (Except.ok idx1Resp) (Except.ok []) false
      (fun _ => false) closeIdx1Probe idx1Resp []
      (fun n => if n = "idx1" then some "close" else none) idx1ClosedStatus
      rfl rfl rfl rfl⟩

theorem forall₂_map_right {R : α → β → Prop} {f : α → β} (hf : ∀ a, R a (f a)) :
    ∀ l : List α, List.Forall₂ R l (l.map f) := by
  intro l
  induction l with
  | nil => exact List.Forall₂.nil
  | cons a l ih => exact List.Forall₂.cons (hf a) ih

/-- C8: the state-enrichment pass only touches `blockerForReindexing`:
whenever the top-level operation succeeds, its `indices` list is pointwise
related to the merged list before enrichment with every other field equal,
and has the same length (and hence order). -/
theorem C8_enrichment_frame
    (fetchDeprecations : Except String DeprecationAPIResponse)
    (fetchApm : Except String (List EnrichedDeprecationInfo))
    (isCloudEnabled : Bool) (isSystemIndex : String → Bool)
    (probe : List (Option String) → Except String (String → Option String))
    (deprecations : DeprecationAPIResponse)
    (apmIndexDeprecations : List EnrichedDeprecationInfo)
    (st : UpgradeAssistantStatus)
    (hfd : fetchDeprecations = Except.ok deprecations)
    (hfa : fetchApm = Except.ok apmIndexDeprecations)
    (h : (getUpgradeAssistantStatus fetchDeprecations fetchApm isCloudEnabled
        isSystemIndex probe).1 = Except.ok st) :
    List.Forall₂
      (fun a b => a.level = b.level ∧ a.message = b.message ∧ a.url = b.url
        ∧ a.details = b.details ∧ a.index = b.index ∧ a.reindex = b.reindex
        ∧ a.needsDefaultFields = b.needsDefaultFields)
      (getCombinedIndexInfos deprecations apmIndexDeprecations isSystemIndex)
      st.indices
    ∧ st.indices.length =
      (getCombinedIndexInfos deprecations apmIndexDeprecations
        isSystemIndex).length := by
  subst hfd
  subst hfa
  have hrun : (runStatusCore deprecations isCloudEnabled apmIndexDeprecations
      isSystemIndex probe).1 = Except.ok st := h
  by_cases hv :
      getCombinedIndexInfos deprecations apmIndexDeprecations isSystemIndex = []
  · rw [runStatusCore_eq_of_empty _ _ _ _ _ hv] at hrun
    simp only [Except.ok.injEq] at hrun
    subst hrun
    rw [mkUpgradeStatus_indices, hv]
    exact ⟨List.Forall₂.nil, rfl⟩
  · cases hps : probe ((getCombinedIndexInfos deprecations apmIndexDeprecations
        isSystemIndex).map (fun d => d.index)) with
    | error e =>
      rw [runStatusCore_eq_of_probe_error _ _ _ _ _ _ hv hps] at hrun
      simp at hrun
    | ok indexStates =>
      rw [runStatusCore_eq_of_probe_ok _ _ _ _ _ _ hv hps] at hrun
      simp only [Except.ok.injEq] at hrun
      subst hrun
      rw [mkUpgradeStatus_indices]
      refine ⟨forall₂_map_right (fun a => ?_) _, ?_⟩
      · exact ⟨rfl, rfl, rfl, rfl, rfl, rfl, rfl⟩
      · exact List.length_map _ _

/-- Witness for C8 on `idx1Resp` with the closing probe: the returned
single entry agrees with the pre-enrichment entry on every field but
`blockerForReindexing`, and the lengths match. -/
theorem C8_witness :
    (getUpgradeAssistantStatus (Except.ok idx1Resp) (Except.ok []) false
        (fun _ => false) closeIdx1Probe).1 = Except.ok idx1ClosedStatus
    ∧ (List.Forall₂
        (fun a b => a.level = b.level ∧ a.message = b.message ∧ a.url = b.url
          ∧ a.details = b.details ∧ a.index = b.index ∧ a.reindex = b.reindex
          ∧ a.needsDefaultFields = b.needsDefaultFields)
        (getCombinedIndexInfos idx1Resp [] (fun _ => false))
        idx1ClosedStatus.indices
      ∧ idx1ClosedStatus.indices.length =
        (getCombinedIndexInfos idx1Resp [] (fun _ => false)).length) :=
  ⟨rfl,
    C8_enrichment_frame (Except.ok idx1Resp) (Except.ok []) false
      (fun _ => false) closeIdx1Probe idx1Resp [] idx1ClosedStatus
      rfl rfl rfl⟩

/-- C9: a failure of any collaborator — the deprecation fetch, the apm
lookup, or the index-state probe — makes the top-level operation fail with
that same error, unwrapped, with no retry (at most the one probe call
already made) and no partial status. -/
theorem C9_error_propagation
    (fetchDeprecations : Except String DeprecationAPIResponse)
    (fetchApm : Except String (List EnrichedDeprecationInfo))
    (isCloudEnabled : Bool) (isSystemIndex : String → Bool)
    (probe : List (Option String) → Except String (String → Option String)) :
    (∀ e, fetchDeprecations = Except.error e →
      getUpgradeAssistantStatus fetchDeprecations fetchApm isCloudEnabled
          isSystemIndex probe = (Except.error e, []))
    ∧ (∀ e deprecations, fetchDeprecations = Except.ok deprecations →
        fetchApm = Except.error e →
      getUpgradeAssistantStatus fetchDeprecations fetchApm isCloudEnabled
          isSystemIndex probe = (Except.error e, []))
    ∧ (∀ e deprecations apmIndexDeprecations,
        fetchDeprecations = Except.ok deprecations →
        fetchApm = Except.ok apmIndexDeprecations →
        getCombinedIndexInfos deprecations apmIndexDeprecations isSystemIndex ≠ [] →
        probe ((getCombinedIndexInfos deprecations apmIndexDeprecations
            isSystemIndex).map (fun d => d.index)) = Except.error e →
      getUpgradeAssistantStatus fetchDeprecations fetchApm isCloudEnabled
          isSystemIndex probe =
        (Except.error e,
          [(getCombinedIndexInfos deprecations apmIndexDeprecations
              isSystemIndex).map (fun d => d.index)])) := by
  refine ⟨?_, ?_, ?_⟩
  · rintro e rfl
    rfl
  · rintro e deprecations rfl rfl
    rfl
  · rintro e deprecations apmIndexDeprecations rfl rfl hne hp
    exact runStatusCore_eq_of_probe_error deprecations isCloudEnabled
      apmIndexDeprecations isSystemIndex probe e hne hp

/-- Witness for C9: each of the three failure sources propagated unchanged
on concrete inputs. -/
theorem C9_witness :
    getUpgradeAssistantStatus (Except.error "boom") (Except.ok []) false
        (fun _ => false) openProbe = (Except.error "boom", [])
    ∧ getUpgradeAssistantStatus (Except.ok emptyResp) (Except.error "apm down")
        false (fun _ => false) openProbe = (Except.error "apm down", [])
    ∧ getUpgradeAssistantStatus (Except.ok idx1Resp) (Except.ok []) false
        (fun _ => false) failProbe =
      (Except.error "probe down",
        [(getCombinedIndexInfos idx1Resp [] (fun _ => false)).map
          (fun d => d.index)]) :=
  ⟨(C9_error_propagation (Except.error "boom") (Except.ok []) false
      (fun _ => false) openProbe).1 "boom" rfl,
    (C9_error_propagation (Except.ok emptyResp) (Except.error "apm down") false
      (fun _ => false) openProbe).2.1 "apm down" emptyResp rfl rfl,
    (C9_error_propagation (Except.ok idx1Resp) (Except.ok []) false
      (fun _ => false) failProbe).2.2 "probe down" idx1Resp [] rfl rfl
      (by decide) rfl⟩

/-- C10: the enrichment pass assigns `blockerForReindexing` on every entry
of the merged list, apm-supplied entries included — the result is the
merged list mapped through a blocker assignment that ignores the previous
value — and an index name absent from the probe mapping yields `none`
(treated as open). -/
theorem C10_enrichment_assigns_all
    (fetchDeprecations : Except String DeprecationAPIResponse)
    (fetchApm : Except String (List EnrichedDeprecationInfo))
    (isCloudEnabled : Bool) (isSystemIndex : String → Bool)
    (probe : List (Option String) → Except String (String → Option String))
    (deprecations : DeprecationAPIResponse)
    (apmIndexDeprecations : List EnrichedDeprecationInfo)
    (indexStates : String → Option String) (st : UpgradeAssistantStatus)
    (hfd : fetchDeprecations = Except.ok deprecations)
    (hfa : fetchApm = Except.ok apmIndexDeprecations)
    (hne : getCombinedIndexInfos deprecations apmIndexDeprecations isSystemIndex ≠ [])
    (hp : probe ((getCombinedIndexInfos deprecations apmIndexDeprecations
        isSystemIndex).map (fun d => d.index)) = Except.ok indexStates)
    (h : (getUpgradeAssistantStatus fetchDeprecations fetchApm isCloudEnabled
        isSystemIndex probe).1 = Except.ok st) :
    st.indices =
      (getCombinedIndexInfos deprecations apmIndexDeprecations isSystemIndex).map
        (fun indexData =>
          { indexData with
              blockerForReindexing :=
                if indexData.index.bind indexStates = some "close" then
                  some "index-closed"
                else
                  none })
    ∧ (∀ e0 ∈ apmIndexDeprecations,
        ({ e0 with
            blockerForReindexing :=
              if e0.index.bind indexStates = some "close" then
                some "index-closed"
              else
                none } : EnrichedDeprecationInfo) ∈ st.indices)
    ∧ ∀ e ∈ st.indices, e.index.bind indexStates = none →
        e.blockerForReindexing = none := by
  subst hfd
  subst hfa
  have hrun : (runStatusCore deprecations isCloudEnabled apmIndexDeprecations
      isSystemIndex probe).1 = Except.ok st := h
  rw [runStatusCore_eq_of_probe_ok _ _ _ _ _ _ hne hp] at hrun
  simp only [Except.ok.injEq] at hrun
  subst hrun
  rw [mkUpgradeStatus_indices]
  refine ⟨rfl, fun e0 he0 => ?_, fun e he hnone => ?_⟩
  · rw [enrichWithState]
    exact List.mem_map_of_mem _
      (List.mem_append_right _ he0)
  · rw [enrichWithState, List.mem_map] at he
    obtain ⟨e1, he1, rfl⟩ := he
    have h1 : e1.index.bind indexStates = none := hnone
    simp [h1]

/-- Witness for C10: the single apm-supplied warning `apmA`, which arrives
with a stale blocker value and whose index the probe mapping omits, is
returned with `blockerForReindexing = none`. -/
theorem C10_witness :
    (getUpgradeAssistantStatus (Except.ok emptyResp) (Except.ok [apmA]) false
        (fun _ => false) openProbe).1 = Except.ok apmAStatus
    ∧ (apmAStatus.indices =
        (getCombinedIndexInfos emptyResp [apmA] (fun _ => false)).map
          (fun indexData =>
            { indexData with
                blockerForReindexing :=
                  if indexData.index.bind (fun _ => none) = some "close" then
                    some "index-closed"
                  else
                    none })
      ∧ (∀ e0 ∈ [apmA],
          ({ e0 with
              blockerForReindexing :=
                if e0.index.bind (fun _ => (none : Option String)) = some "close" then
                  some "index-closed"
                else
                  none } : EnrichedDeprecationInfo) ∈ apmAStatus.indices)
      ∧ ∀ e ∈ apmAStatus.indices,
          e.index.bind (fun _ => (none : Option String)) = none →
            e.blockerForReindexing = none) :=
  ⟨rfl,
    C10_enrichment_assigns_all (Except.ok emptyResp) (Except.ok [apmA]) false
      (fun _ => false) openProbe emptyResp [apmA] (fun _ => none) apmAStatus
      rfl rfl (by decide) rfl rfl⟩
